import Mathlib

/-!
Shallow embedding of the micro-batching coordinator
(`src/index.ts` and `src/types.ts` of enihar/micro-batching).

Modelling choices:
* TypeScript numbers used by the configuration are modelled as `Nat`;
  the only falsy `Nat` is `0`, which models the `||`-defaulting rule
  `config?.batchSize || 10`.
* The immutable `batchProcessor` field (set once in the constructor and
  never reassigned) is passed as an explicit parameter `bp` to the
  methods that read it.  Its asynchronous `process` call is modelled as
  a pure function `List T → Except Thrown (List R)`: it either returns
  a whole result list or fails as a unit with a thrown value.
* A promise's `resolve` callback is modelled by giving every accepted
  job a unique handle `uid`; calling `resolve value` is modelled as
  appending `(uid, value)` to the ghost log `resolutions`.  The ghost
  lists `accepted` (every job ever accepted by `submitJob`) and
  `processorCalls` (the argument of every `batchProcessor.process`
  invocation) record externally observable history and are written to,
  never read, by the operations.
* `setTimeout` / `clearTimeout` are modelled by timer identifiers: the
  runtime's set of scheduled, not-yet-fired, not-yet-cleared timeouts is
  the list `scheduled`; the `batchTimer` field holds the handle stored
  by the coordinator.  A timer-fire event removes the timeout from
  `scheduled` and then runs the callback `() => this.processBatch()`.
* `results.forEach((result, index) => ...)` pairing results with
  `jobsToProcess[index]` is modelled with `List.zip`, which agrees with
  the source whenever `results.length ≤ jobsToProcess.length` — i.e.
  under the processor's same-length contract and under the short-result
  contract violation; longer result lists are outside the model.
-/

namespace MicroBatching

/-- Interface `BatchingConfig` from `src/types.ts`: optional batch size and
frequency. -/
structure BatchingConfig where
  batchSize : Option Nat
  frequencyMs : Option Nat
  deriving DecidableEq

/-- Interface `Job<T>` from `src/types.ts`. -/
structure Job (T : Type) where
  id : String
  payload : T
  deriving DecidableEq

/-- Interface `JobResult<R>` from `src/types.ts`: the `error` field holds the
message of the `Error` object. -/
structure JobResult (R : Type) where
  id : String
  result : Option R
  error : Option String
  deriving DecidableEq

/-- A JavaScript value caught by `catch (error)`: either an `Error` instance
carrying a message, or any other thrown value. -/
inductive Thrown where
  | errorInstance (message : String)
  | nonErrorValue
  deriving DecidableEq

/-- Interface `InternalJob<T, R>` from `src/index.ts`: a `Job` extended with
its `resolve` callback, here represented by the unique handle `uid`. -/
structure InternalJob (T : Type) where
  uid : Nat
  id : String
  payload : T
  deriving DecidableEq

/-- The `process` method of the `BatchProcessor<T, R>` capability. -/
def BatchProcessorFun (T R : Type) : Type :=
  List T → Except Thrown (List R)

/-- The mutable state of a `MicroBatchProcessor<T, R>` instance, together
with the ghost history fields described in the module docstring. -/
structure MicroBatchProcessor (T R : Type) where
  pendingJobs : List (InternalJob T)
  isShuttingDown : Bool
  batchSize : Nat
  batchFrequency : Nat
  batchTimer : Option Nat
  scheduled : List Nat
  nextTimerId : Nat
  nextUid : Nat
  accepted : List (InternalJob T)
  resolutions : List (Nat × JobResult R)
  processorCalls : List (List T)

namespace MicroBatchProcessor

variable {T R : Type}

/-- JavaScript `x || d` for an optional numeric field: absent or falsy
(`0` is the falsy `Nat`) falls back to the default. -/
def orDefault (x : Option Nat) (d : Nat) : Nat :=
  match x with
  | none => d
  | some n => if n = 0 then d else n

/-- The constructor of `MicroBatchProcessor`: empty queue, no timer, not
shutting down, `batchSize` defaulting to `10` and `batchFrequency`
(`config?.frequencyMs`) defaulting to `1000` by the falsy rule. -/
def init (config : Option BatchingConfig) : MicroBatchProcessor T R :=
  { pendingJobs := []
    isShuttingDown := false
    batchSize := orDefault (config.bind (·.batchSize)) 10
    batchFrequency := orDefault (config.bind (·.frequencyMs)) 1000
    batchTimer := none
    scheduled := []
    nextTimerId := 0
    nextUid := 0
    accepted := []
    resolutions := []
    processorCalls := [] }

/-- `clearBatchTimer`: if a timer handle is stored, `clearTimeout` it (remove
it from the runtime's scheduled set) and null the field. -/
def clearBatchTimer (s : MicroBatchProcessor T R) : MicroBatchProcessor T R :=
  match s.batchTimer with
  | some t => { s with scheduled := s.scheduled.erase t, batchTimer := none }
  | none => s

/-- The message of the `Error` resolved on a failed batch:
`error instanceof Error ? error : new Error('Unknown error')`. -/
def caughtMessage (e : Thrown) : String :=
  match e with
  | .errorInstance m => m
  | .nonErrorValue => "Unknown error"

/-- `processBatch`: clear the timer, splice the first `batchSize` pending
jobs, call the batch processor on their payloads, and resolve each spliced
job — positionally with a success value, or all with the caught error. -/
def processBatch (bp : BatchProcessorFun T R) (s : MicroBatchProcessor T R) :
    MicroBatchProcessor T R :=
  let s0 := clearBatchTimer s
  let jobsToProcess := s0.pendingJobs.take s0.batchSize
  let s1 : MicroBatchProcessor T R :=
    { s0 with
      pendingJobs := s0.pendingJobs.drop s0.batchSize
      processorCalls := s0.processorCalls ++ [jobsToProcess.map (·.payload)] }
  match bp (jobsToProcess.map (·.payload)) with
  | .ok results =>
    { s1 with
      resolutions := s1.resolutions ++
        (jobsToProcess.zip results).map
          (fun p => (p.1.uid, { id := p.1.id, result := some p.2, error := none })) }
  | .error e =>
    { s1 with
      resolutions := s1.resolutions ++
        jobsToProcess.map
          (fun ij => (ij.uid, { id := ij.id, result := none,
                                error := some (caughtMessage e) })) }

/-- `submitJob`: throw synchronously when shutting down; otherwise wrap the
job with a fresh completion handle, push it, then either process a full
batch immediately or arm the timer if none is armed.  Returns the new state
and the handle given to the caller. -/
def submitJob (bp : BatchProcessorFun T R) (job : Job T)
    (s : MicroBatchProcessor T R) :
    Except String (MicroBatchProcessor T R × Nat) :=
  if s.isShuttingDown then
    Except.error "Cannot submit job - the system is shutting down."
  else
    let internalJob : InternalJob T := ⟨s.nextUid, job.id, job.payload⟩
    let s1 : MicroBatchProcessor T R :=
      { s with
        pendingJobs := s.pendingJobs ++ [internalJob]
        accepted := s.accepted ++ [internalJob]
        nextUid := s.nextUid + 1 }
    if s1.batchSize ≤ s1.pendingJobs.length then
      Except.ok (processBatch bp s1, internalJob.uid)
    else if s1.batchTimer = none then
      Except.ok
        ({ s1 with
           scheduled := s1.scheduled ++ [s1.nextTimerId]
           batchTimer := some s1.nextTimerId
           nextTimerId := s1.nextTimerId + 1 }, internalJob.uid)
    else
      Except.ok (s1, internalJob.uid)

/-- `shutdown`: latch the flag, clear the timer, then run one `processBatch`
if any jobs are pending. -/
def shutdown (bp : BatchProcessorFun T R) (s : MicroBatchProcessor T R) :
    MicroBatchProcessor T R :=
  let s1 : MicroBatchProcessor T R := { s with isShuttingDown := true }
  let s2 := clearBatchTimer s1
  if 0 < s2.pendingJobs.length then processBatch bp s2 else s2

/-- External events driving a coordinator instance: a submission, the firing
of a scheduled timeout, or a shutdown call. -/
inductive Event (T : Type) where
  | submit (job : Job T)
  | timerFire
  | shutdownCall

/-- One event step.  A rejected submission (thrown error) leaves the state
unchanged; a timer fire consumes a scheduled timeout and runs the callback
`() => this.processBatch()`; firing when nothing is scheduled is a no-op. -/
def step (bp : BatchProcessorFun T R) (s : MicroBatchProcessor T R) :
    Event T → MicroBatchProcessor T R
  | .submit job =>
    match submitJob bp job s with
    | .ok (s', _) => s'
    | .error _ => s
  | .timerFire =>
    match s.scheduled with
    | [] => s
    | _ :: rest => processBatch bp { s with scheduled := rest }
  | .shutdownCall => shutdown bp s

/-- Run a list of events from a given state. -/
def runFrom (bp : BatchProcessorFun T R) (s : MicroBatchProcessor T R)
    (events : List (Event T)) : MicroBatchProcessor T R :=
  events.foldl (step bp) s

/-- Run a list of events from a freshly constructed coordinator. -/
def run (bp : BatchProcessorFun T R) (config : Option BatchingConfig)
    (events : List (Event T)) : MicroBatchProcessor T R :=
  runFrom bp (init config) events

/-! Projection lemmas: which fields each operation leaves untouched. -/

@[simp] theorem clearBatchTimer_pendingJobs (s : MicroBatchProcessor T R) :
    (clearBatchTimer s).pendingJobs = s.pendingJobs := by
  cases hb : s.batchTimer <;> simp [clearBatchTimer, hb]

@[simp] theorem clearBatchTimer_resolutions (s : MicroBatchProcessor T R) :
    (clearBatchTimer s).resolutions = s.resolutions := by
  cases hb : s.batchTimer <;> simp [clearBatchTimer, hb]

@[simp] theorem clearBatchTimer_accepted (s : MicroBatchProcessor T R) :
    (clearBatchTimer s).accepted = s.accepted := by
  cases hb : s.batchTimer <;> simp [clearBatchTimer, hb]

@[simp] theorem clearBatchTimer_nextUid (s : MicroBatchProcessor T R) :
    (clearBatchTimer s).nextUid = s.nextUid := by
  cases hb : s.batchTimer <;> simp [clearBatchTimer, hb]

@[simp] theorem clearBatchTimer_batchSize (s : MicroBatchProcessor T R) :
    (clearBatchTimer s).batchSize = s.batchSize := by
  cases hb : s.batchTimer <;> simp [clearBatchTimer, hb]

@[simp] theorem clearBatchTimer_batchFrequency (s : MicroBatchProcessor T R) :
    (clearBatchTimer s).batchFrequency = s.batchFrequency := by
  cases hb : s.batchTimer <;> simp [clearBatchTimer, hb]

@[simp] theorem clearBatchTimer_processorCalls (s : MicroBatchProcessor T R) :
    (clearBatchTimer s).processorCalls = s.processorCalls := by
  cases hb : s.batchTimer <;> simp [clearBatchTimer, hb]

@[simp] theorem clearBatchTimer_isShuttingDown (s : MicroBatchProcessor T R) :
    (clearBatchTimer s).isShuttingDown = s.isShuttingDown := by
  cases hb : s.batchTimer <;> simp [clearBatchTimer, hb]

@[simp] theorem clearBatchTimer_nextTimerId (s : MicroBatchProcessor T R) :
    (clearBatchTimer s).nextTimerId = s.nextTimerId := by
  cases hb : s.batchTimer <;> simp [clearBatchTimer, hb]

@[simp] theorem clearBatchTimer_batchTimer (s : MicroBatchProcessor T R) :
    (clearBatchTimer s).batchTimer = none := by
  cases hb : s.batchTimer <;> simp [clearBatchTimer, hb]

variable {bp : BatchProcessorFun T R}

@[simp] theorem processBatch_pendingJobs (s : MicroBatchProcessor T R) :
    (processBatch bp s).pendingJobs = s.pendingJobs.drop s.batchSize := by
  cases hc : bp ((s.pendingJobs.take s.batchSize).map (·.payload)) <;>
    (simp only [List.map_take] at hc; simp [processBatch, hc])

@[simp] theorem processBatch_processorCalls (s : MicroBatchProcessor T R) :
    (processBatch bp s).processorCalls =
      s.processorCalls ++ [(s.pendingJobs.take s.batchSize).map (·.payload)] := by
  cases hc : bp ((s.pendingJobs.take s.batchSize).map (·.payload)) <;>
    (simp only [List.map_take] at hc; simp [processBatch, hc])

@[simp] theorem processBatch_accepted (s : MicroBatchProcessor T R) :
    (processBatch bp s).accepted = s.accepted := by
  cases hc : bp ((s.pendingJobs.take s.batchSize).map (·.payload)) <;>
    (simp only [List.map_take] at hc; simp [processBatch, hc])

@[simp] theorem processBatch_nextUid (s : MicroBatchProcessor T R) :
    (processBatch bp s).nextUid = s.nextUid := by
  cases hc : bp ((s.pendingJobs.take s.batchSize).map (·.payload)) <;>
    (simp only [List.map_take] at hc; simp [processBatch, hc])

@[simp] theorem processBatch_batchSize (s : MicroBatchProcessor T R) :
    (processBatch bp s).batchSize = s.batchSize := by
  cases hc : bp ((s.pendingJobs.take s.batchSize).map (·.payload)) <;>
    (simp only [List.map_take] at hc; simp [processBatch, hc])

@[simp] theorem processBatch_batchFrequency (s : MicroBatchProcessor T R) :
    (processBatch bp s).batchFrequency = s.batchFrequency := by
  cases hc : bp ((s.pendingJobs.take s.batchSize).map (·.payload)) <;>
    (simp only [List.map_take] at hc; simp [processBatch, hc])

@[simp] theorem processBatch_isShuttingDown (s : MicroBatchProcessor T R) :
    (processBatch bp s).isShuttingDown = s.isShuttingDown := by
  cases hc : bp ((s.pendingJobs.take s.batchSize).map (·.payload)) <;>
    (simp only [List.map_take] at hc; simp [processBatch, hc])

@[simp] theorem processBatch_nextTimerId (s : MicroBatchProcessor T R) :
    (processBatch bp s).nextTimerId = s.nextTimerId := by
  cases hc : bp ((s.pendingJobs.take s.batchSize).map (·.payload)) <;>
    (simp only [List.map_take] at hc; simp [processBatch, hc])

@[simp] theorem processBatch_batchTimer (s : MicroBatchProcessor T R) :
    (processBatch bp s).batchTimer = none := by
  cases hc : bp ((s.pendingJobs.take s.batchSize).map (·.payload)) <;>
    (simp only [List.map_take] at hc; simp [processBatch, hc])

@[simp] theorem processBatch_scheduled (s : MicroBatchProcessor T R) :
    (processBatch bp s).scheduled = (clearBatchTimer s).scheduled := by
  cases hc : bp ((s.pendingJobs.take s.batchSize).map (·.payload)) <;>
    (simp only [List.map_take] at hc; simp [processBatch, hc])

theorem processBatch_resolutions_ok (s : MicroBatchProcessor T R)
    (results : List R)
    (hc : bp ((s.pendingJobs.take s.batchSize).map (·.payload)) = .ok results) :
    (processBatch bp s).resolutions =
      s.resolutions ++
        ((s.pendingJobs.take s.batchSize).zip results).map
          (fun p => (p.1.uid, { id := p.1.id, result := some p.2, error := none })) := by
  simp only [List.map_take] at hc
  simp [processBatch, hc]

theorem processBatch_resolutions_error (s : MicroBatchProcessor T R)
    (e : Thrown)
    (hc : bp ((s.pendingJobs.take s.batchSize).map (·.payload)) = .error e) :
    (processBatch bp s).resolutions =
      s.resolutions ++
        (s.pendingJobs.take s.batchSize).map
          (fun ij => (ij.uid, { id := ij.id, result := none,
                                error := some (caughtMessage e) })) := by
  simp only [List.map_take] at hc
  simp [processBatch, hc]

/-! Concrete batch processors used to evaluate the model on closed inputs. -/

/-- A batch processor that squares every payload (the mock used by the
repository's tests). -/
def bpSquare : BatchProcessorFun Nat Nat :=
  fun l => Except.ok (l.map (fun x => x * x))

/-- A batch processor that always fails with an `Error` instance. -/
def bpFail : BatchProcessorFun Nat Nat :=
  fun _ => Except.error (Thrown.errorInstance "Processing error")

/-- A contract-violating batch processor that returns only the first result. -/
def bpShort : BatchProcessorFun Nat Nat :=
  fun l => Except.ok ((l.map (fun x => x * x)).take 1)

/-- A coordinator state with `batchSize = 1` and two queued jobs, the
configuration §9 of the specification attributes to pathological concurrent
submissions: the queue holds more than `batchSize` accepted, unresolved
jobs when `shutdown` is called. -/
def overfullDrainState : MicroBatchProcessor Nat Nat :=
  { pendingJobs := [⟨0, "a", 1⟩, ⟨1, "b", 2⟩]
    isShuttingDown := false
    batchSize := 1
    batchFrequency := 1000
    batchTimer := none
    scheduled := []
    nextTimerId := 0
    nextUid := 2
    accepted := [⟨0, "a", 1⟩, ⟨1, "b", 2⟩]
    resolutions := []
    processorCalls := [] }

/-- C1: evaluation of `shutdown` at a state whose queue exceeds `batchSize`.
The single drain cycle extracts only `batchSize = 1` of the two queued jobs:
after `shutdown` finishes, job `1` is still queued and only job `0` has been
resolved — contradicting the guarantee that the queue is empty and every
accepted job is resolved. -/
theorem shutdown_overfull_single_drain :
    (shutdown bpSquare overfullDrainState).pendingJobs = [⟨1, "b", 2⟩] ∧
    (shutdown bpSquare overfullDrainState).resolutions.map Prod.fst = [0] := by
  decide

/-- C2 counterexample: running a dispatch cycle on an empty queue does invoke
the Batch Processor — `processBatch` has no empty-queue guard, so
`batchProcessor.process` is called with the empty payload list, extending the
call log from `[]` to `[[]]`. -/
theorem processBatch_empty_queue_calls_processor :
    (processBatch bpSquare (init (T := Nat) (R := Nat) none)).processorCalls = [[]] ∧
    ¬ (processBatch bpSquare (init (T := Nat) (R := Nat) none)).processorCalls =
        (init (T := Nat) (R := Nat) none).processorCalls := by
  decide

/-- C2 (amended): in a dispatch cycle on an empty queue no job is resolved
and the queue stays empty, but the Batch Processor is still invoked, with the
empty payload sequence. -/
theorem processBatch_empty_queue_spec (bp : BatchProcessorFun T R)
    (s : MicroBatchProcessor T R) (h : s.pendingJobs = []) :
    (processBatch bp s).resolutions = s.resolutions ∧
    (processBatch bp s).pendingJobs = [] ∧
    (processBatch bp s).processorCalls = s.processorCalls ++ [[]] := by
  cases hc : bp ((s.pendingJobs.take s.batchSize).map (·.payload)) with
  | ok results =>
    exact ⟨by rw [processBatch_resolutions_ok _ _ hc]; simp [h],
           by simp [h], by simp [h]⟩
  | error e =>
    exact ⟨by rw [processBatch_resolutions_error _ _ hc]; simp [h],
           by simp [h], by simp [h]⟩

/-- Witness for the amended C2 theorem at a freshly constructed coordinator. -/
theorem processBatch_empty_queue_spec_witness :
    (init (T := Nat) (R := Nat) none).pendingJobs = [] ∧
    ((processBatch bpFail (init (T := Nat) (R := Nat) none)).resolutions =
        (init (T := Nat) (R := Nat) none).resolutions ∧
      (processBatch bpFail (init (T := Nat) (R := Nat) none)).pendingJobs = [] ∧
      (processBatch bpFail (init (T := Nat) (R := Nat) none)).processorCalls =
        (init (T := Nat) (R := Nat) none).processorCalls ++ [[]]) :=
  ⟨rfl, processBatch_empty_queue_spec bpFail (init none) rfl⟩

/-- C4: when the Batch Processor succeeds honouring its same-length contract,
the dispatch cycle resolves every extracted job, and the resolution appended
at offset `i` pairs the job extracted at position `i` with its own identifier
and the success value at position `i` of the returned sequence. -/
theorem processBatch_success_positional (bp : BatchProcessorFun T R)
    (s : MicroBatchProcessor T R) (results : List R)
    (hc : bp ((s.pendingJobs.take s.batchSize).map (·.payload)) = .ok results)
    (hlen : results.length = (s.pendingJobs.take s.batchSize).length) :
    ((processBatch bp s).resolutions).length =
      s.resolutions.length + (s.pendingJobs.take s.batchSize).length ∧
    ∀ i ji ri, (s.pendingJobs.take s.batchSize)[i]? = some ji →
      results[i]? = some ri →
      ((processBatch bp s).resolutions)[s.resolutions.length + i]? =
        some (ji.uid, { id := ji.id, result := some ri, error := none }) := by
  rw [processBatch_resolutions_ok _ _ hc]
  constructor
  · simp [List.length_zip, hlen]
  · intro i ji ri hji hri
    rw [List.getElem?_append_right (Nat.le_add_right _ _)]
    simp only [Nat.add_sub_cancel_left, List.getElem?_map]
    have hz : ((s.pendingJobs.take s.batchSize).zip results)[i]? = some (ji, ri) := by
      simp only [List.getElem?_zip_eq_some]
      exact ⟨hji, hri⟩
    rw [hz]
    rfl

/-- A coordinator state with two queued jobs, payloads 2 and 3, and a batch
size large enough not to have triggered yet. -/
def twoJobState : MicroBatchProcessor Nat Nat :=
  { pendingJobs := [⟨0, "x", 2⟩, ⟨1, "y", 3⟩]
    isShuttingDown := false
    batchSize := 10
    batchFrequency := 1000
    batchTimer := some 0
    scheduled := [0]
    nextTimerId := 1
    nextUid := 2
    accepted := [⟨0, "x", 2⟩, ⟨1, "y", 3⟩]
    resolutions := []
    processorCalls := [] }

/-- Witness for C4: two jobs with payloads 2 and 3, squared to 4 and 9. -/
theorem processBatch_success_positional_witness :
    bpSquare ((twoJobState.pendingJobs.take twoJobState.batchSize).map (·.payload)) =
      .ok [4, 9] ∧
    (((processBatch bpSquare twoJobState).resolutions).length =
        twoJobState.resolutions.length +
          (twoJobState.pendingJobs.take twoJobState.batchSize).length ∧
      ∀ i ji ri, (twoJobState.pendingJobs.take twoJobState.batchSize)[i]? = some ji →
        (([4, 9] : List Nat))[i]? = some ri →
        ((processBatch bpSquare twoJobState).resolutions)[
            twoJobState.resolutions.length + i]? =
          some (ji.uid, { id := ji.id, result := some ri, error := none })) :=
  ⟨rfl, processBatch_success_positional bpSquare twoJobState [4, 9] rfl rfl⟩

/-- C5: when the Batch Processor fails, the dispatch cycle resolves every
extracted job with its own identifier, no success value, and the caught
error — whose message is the thrown `Error`'s message, normalized to
"Unknown error" when the thrown value is not an `Error`.  The extracted jobs
are not re-queued (the queue is exactly the splice remainder) and the
processor is invoked exactly once (no retry). -/
theorem processBatch_failure_broadcast (bp : BatchProcessorFun T R)
    (s : MicroBatchProcessor T R) (e : Thrown)
    (hc : bp ((s.pendingJobs.take s.batchSize).map (·.payload)) = .error e) :
    (processBatch bp s).pendingJobs = s.pendingJobs.drop s.batchSize ∧
    (processBatch bp s).processorCalls =
      s.processorCalls ++ [(s.pendingJobs.take s.batchSize).map (·.payload)] ∧
    ((processBatch bp s).resolutions).length =
      s.resolutions.length + (s.pendingJobs.take s.batchSize).length ∧
    (∀ i ji, (s.pendingJobs.take s.batchSize)[i]? = some ji →
      ((processBatch bp s).resolutions)[s.resolutions.length + i]? =
        some (ji.uid, { id := ji.id, result := none,
                        error := some (caughtMessage e) })) ∧
    (∀ m, caughtMessage (Thrown.errorInstance m) = m) ∧
    caughtMessage Thrown.nonErrorValue = "Unknown error" := by
  refine ⟨processBatch_pendingJobs s, processBatch_processorCalls s, ?_, ?_,
    fun m => rfl, rfl⟩
  · rw [processBatch_resolutions_error _ _ hc]
    simp
  · intro i ji hji
    rw [processBatch_resolutions_error _ _ hc,
      List.getElem?_append_right (Nat.le_add_right _ _)]
    simp only [Nat.add_sub_cancel_left, List.getElem?_map]
    rw [hji]
    rfl

/-- Witness for C5 at a two-job state and an always-failing processor. -/
theorem processBatch_failure_broadcast_witness :
    bpFail ((twoJobState.pendingJobs.take twoJobState.batchSize).map (·.payload)) =
      .error (Thrown.errorInstance "Processing error") ∧
    ((processBatch bpFail twoJobState).pendingJobs =
        twoJobState.pendingJobs.drop twoJobState.batchSize ∧
      (processBatch bpFail twoJobState).processorCalls =
        twoJobState.processorCalls ++
          [(twoJobState.pendingJobs.take twoJobState.batchSize).map (·.payload)] ∧
      ((processBatch bpFail twoJobState).resolutions).length =
        twoJobState.resolutions.length +
          (twoJobState.pendingJobs.take twoJobState.batchSize).length ∧
      (∀ i ji, (twoJobState.pendingJobs.take twoJobState.batchSize)[i]? = some ji →
        ((processBatch bpFail twoJobState).resolutions)[
            twoJobState.resolutions.length + i]? =
          some (ji.uid, { id := ji.id, result := none,
                          error := some (caughtMessage
                            (Thrown.errorInstance "Processing error")) })) ∧
      (∀ m, caughtMessage (Thrown.errorInstance m) = m) ∧
      caughtMessage Thrown.nonErrorValue = "Unknown error") :=
  ⟨rfl, processBatch_failure_broadcast bpFail twoJobState
    (Thrown.errorInstance "Processing error") rfl⟩

/-- C7: a dispatch cycle bulk-removes the oldest up-to-`batchSize` entries
from the front of the queue and invokes the processor with exactly their
payloads in submission order (all remaining payloads when fewer than
`batchSize` are queued), and a non-triggering `submitJob` appends the job at
the back of the queue — the only two queue mutations. -/
theorem dispatch_fifo_extraction (bp : BatchProcessorFun T R)
    (s : MicroBatchProcessor T R) (job : Job T) :
    (processBatch bp s).pendingJobs = s.pendingJobs.drop s.batchSize ∧
    (processBatch bp s).processorCalls =
      s.processorCalls ++ [(s.pendingJobs.take s.batchSize).map (·.payload)] ∧
    ((s.pendingJobs.take s.batchSize).map (·.payload)).length =
      min s.batchSize s.pendingJobs.length ∧
    (∀ i ij, i < s.batchSize → s.pendingJobs[i]? = some ij →
      ((s.pendingJobs.take s.batchSize).map (·.payload))[i]? = some ij.payload) ∧
    (s.pendingJobs.length ≤ s.batchSize →
      (processBatch bp s).pendingJobs = [] ∧
      (processBatch bp s).processorCalls =
        s.processorCalls ++ [s.pendingJobs.map (·.payload)]) ∧
    (s.isShuttingDown = false → s.pendingJobs.length + 1 < s.batchSize →
      ∃ s', submitJob bp job s = .ok (s', s.nextUid) ∧
        s'.pendingJobs = s.pendingJobs ++ [⟨s.nextUid, job.id, job.payload⟩]) := by
  refine ⟨processBatch_pendingJobs s, processBatch_processorCalls s, ?_, ?_, ?_, ?_⟩
  · simp [List.length_take]
  · intro i ij hi hij
    rw [List.getElem?_map, List.getElem?_take_of_lt hi, hij]
    rfl
  · intro hle
    refine ⟨?_, ?_⟩
    · rw [processBatch_pendingJobs s, List.drop_eq_nil_of_le hle]
    · rw [processBatch_processorCalls s, List.take_of_length_le hle]
  · intro hsd hlt
    have hnotfull : ¬ (s.batchSize ≤ s.pendingJobs.length + 1) := by omega
    by_cases ht : s.batchTimer = none
    · refine ⟨{ s with
          pendingJobs := s.pendingJobs ++ [⟨s.nextUid, job.id, job.payload⟩]
          accepted := s.accepted ++ [⟨s.nextUid, job.id, job.payload⟩]
          nextUid := s.nextUid + 1
          scheduled := s.scheduled ++ [s.nextTimerId]
          batchTimer := some s.nextTimerId
          nextTimerId := s.nextTimerId + 1 }, ?_, ?_⟩
      · simp [submitJob, hsd, hnotfull, ht]
      · simp
    · refine ⟨{ s with
          pendingJobs := s.pendingJobs ++ [⟨s.nextUid, job.id, job.payload⟩]
          accepted := s.accepted ++ [⟨s.nextUid, job.id, job.payload⟩]
          nextUid := s.nextUid + 1 }, ?_, ?_⟩
      · simp [submitJob, hsd, hnotfull, ht]
      · simp

/-- Witness for C7 at a two-job state, batch size 10. -/
theorem dispatch_fifo_extraction_witness :
    twoJobState.isShuttingDown = false ∧
    twoJobState.pendingJobs.length + 1 < twoJobState.batchSize ∧
    twoJobState.pendingJobs.length ≤ twoJobState.batchSize ∧
    ((processBatch bpSquare twoJobState).pendingJobs =
        twoJobState.pendingJobs.drop twoJobState.batchSize ∧
      (processBatch bpSquare twoJobState).processorCalls =
        twoJobState.processorCalls ++
          [(twoJobState.pendingJobs.take twoJobState.batchSize).map (·.payload)] ∧
      ((twoJobState.pendingJobs.take twoJobState.batchSize).map (·.payload)).length =
        min twoJobState.batchSize twoJobState.pendingJobs.length ∧
      (∀ i ij, i < twoJobState.batchSize → twoJobState.pendingJobs[i]? = some ij →
        ((twoJobState.pendingJobs.take twoJobState.batchSize).map
          (·.payload))[i]? = some ij.payload) ∧
      (twoJobState.pendingJobs.length ≤ twoJobState.batchSize →
        (processBatch bpSquare twoJobState).pendingJobs = [] ∧
        (processBatch bpSquare twoJobState).processorCalls =
          twoJobState.processorCalls ++ [twoJobState.pendingJobs.map (·.payload)]) ∧
      (twoJobState.isShuttingDown = false →
        twoJobState.pendingJobs.length + 1 < twoJobState.batchSize →
        ∃ s', submitJob bpSquare ⟨"z", 5⟩ twoJobState = .ok (s', twoJobState.nextUid) ∧
          s'.pendingJobs = twoJobState.pendingJobs ++
            [⟨twoJobState.nextUid, "z", 5⟩])) :=
  ⟨rfl, by decide, by decide, dispatch_fifo_extraction bpSquare twoJobState ⟨"z", 5⟩⟩

/-- C6: `submitJob` called with the shutdown flag raised fails synchronously
with the shutdown error and produces nothing — as an event it leaves the
state untouched, so no completion handle exists and no `JobResult` is ever
produced for the rejected submission.  With the flag down it accepts the
job, appending it (wrapped with the fresh handle `nextUid`, returned to the
caller) to the accepted list, and to the queue itself whenever the size
threshold is not reached by this push. -/
theorem submitJob_shutdown_gate (bp : BatchProcessorFun T R) (job : Job T)
    (s : MicroBatchProcessor T R) :
    (s.isShuttingDown = true →
      submitJob bp job s =
        .error "Cannot submit job - the system is shutting down." ∧
      step bp s (.submit job) = s) ∧
    (s.isShuttingDown = false →
      ∃ s', submitJob bp job s = .ok (s', s.nextUid) ∧
        s'.accepted = s.accepted ++ [⟨s.nextUid, job.id, job.payload⟩] ∧
        s'.nextUid = s.nextUid + 1 ∧
        (s.pendingJobs.length + 1 < s.batchSize →
          s'.pendingJobs = s.pendingJobs ++ [⟨s.nextUid, job.id, job.payload⟩])) := by
  constructor
  · intro hsd
    have he : submitJob bp job s =
        .error "Cannot submit job - the system is shutting down." := by
      simp [submitJob, hsd]
    exact ⟨he, by simp [step, he]⟩
  · intro hsd
    by_cases hfull : s.batchSize ≤ s.pendingJobs.length + 1
    · refine ⟨processBatch bp
        { s with pendingJobs := s.pendingJobs ++ [⟨s.nextUid, job.id, job.payload⟩]
                 accepted := s.accepted ++ [⟨s.nextUid, job.id, job.payload⟩]
                 nextUid := s.nextUid + 1 }, ?_, ?_, ?_, ?_⟩
      · simp [submitJob, hsd, hfull]
      · simp
      · simp
      · intro hlt
        omega
    · by_cases ht : s.batchTimer = none
      · refine ⟨{ s with
            pendingJobs := s.pendingJobs ++ [⟨s.nextUid, job.id, job.payload⟩]
            accepted := s.accepted ++ [⟨s.nextUid, job.id, job.payload⟩]
            nextUid := s.nextUid + 1
            scheduled := s.scheduled ++ [s.nextTimerId]
            batchTimer := some s.nextTimerId
            nextTimerId := s.nextTimerId + 1 }, ?_, ?_, ?_, ?_⟩
        · simp [submitJob, hsd, hfull, ht]
        · simp
        · simp
        · intro _
          simp
      · refine ⟨{ s with
            pendingJobs := s.pendingJobs ++ [⟨s.nextUid, job.id, job.payload⟩]
            accepted := s.accepted ++ [⟨s.nextUid, job.id, job.payload⟩]
            nextUid := s.nextUid + 1 }, ?_, ?_, ?_, ?_⟩
        · simp [submitJob, hsd, hfull, ht]
        · simp
        · simp
        · intro _
          simp

/-- Witness for C6: rejection after shutdown and acceptance before it. -/
theorem submitJob_shutdown_gate_witness :
    ((shutdown bpSquare twoJobState).isShuttingDown = true →
      submitJob bpSquare ⟨"w", 7⟩ (shutdown bpSquare twoJobState) =
        .error "Cannot submit job - the system is shutting down." ∧
      step bpSquare (shutdown bpSquare twoJobState)
        (.submit ⟨"w", 7⟩) = shutdown bpSquare twoJobState) ∧
    ((shutdown bpSquare twoJobState).isShuttingDown = false →
      ∃ s', submitJob bpSquare ⟨"w", 7⟩ (shutdown bpSquare twoJobState) =
          .ok (s', (shutdown bpSquare twoJobState).nextUid) ∧
        s'.accepted = (shutdown bpSquare twoJobState).accepted ++
          [⟨(shutdown bpSquare twoJobState).nextUid, "w", 7⟩] ∧
        s'.nextUid = (shutdown bpSquare twoJobState).nextUid + 1 ∧
        ((shutdown bpSquare twoJobState).pendingJobs.length + 1 <
            (shutdown bpSquare twoJobState).batchSize →
          s'.pendingJobs = (shutdown bpSquare twoJobState).pendingJobs ++
            [⟨(shutdown bpSquare twoJobState).nextUid, "w", 7⟩])) :=
  submitJob_shutdown_gate bpSquare ⟨"w", 7⟩ (shutdown bpSquare twoJobState)

/-- C9: construction defaults both configuration values by the falsy rule
alone — an absent or zero `batchSize` becomes 10 and an absent or zero
`frequencyMs` becomes 1000, while any other explicitly supplied value is
accepted unchanged, never rejected. -/
theorem init_config_defaults (T R : Type) (n m : Nat) (hn : n ≠ 0) (hm : m ≠ 0) :
    ((init (T := T) (R := R) none).batchSize = 10 ∧
      (init (T := T) (R := R) none).batchFrequency = 1000) ∧
    ((init (T := T) (R := R) (some ⟨none, none⟩)).batchSize = 10 ∧
      (init (T := T) (R := R) (some ⟨none, none⟩)).batchFrequency = 1000) ∧
    ((init (T := T) (R := R) (some ⟨some 0, some 0⟩)).batchSize = 10 ∧
      (init (T := T) (R := R) (some ⟨some 0, some 0⟩)).batchFrequency = 1000) ∧
    ((init (T := T) (R := R) (some ⟨some n, some m⟩)).batchSize = n ∧
      (init (T := T) (R := R) (some ⟨some n, some m⟩)).batchFrequency = m) := by
  simp [init, orDefault, hn, hm]

/-- Witness for C9 with the explicit truthy values 3 and 7. -/
theorem init_config_defaults_witness :
    (3 : Nat) ≠ 0 ∧ (7 : Nat) ≠ 0 ∧
    (((init (T := Nat) (R := Nat) none).batchSize = 10 ∧
        (init (T := Nat) (R := Nat) none).batchFrequency = 1000) ∧
      ((init (T := Nat) (R := Nat) (some ⟨none, none⟩)).batchSize = 10 ∧
        (init (T := Nat) (R := Nat) (some ⟨none, none⟩)).batchFrequency = 1000) ∧
      ((init (T := Nat) (R := Nat) (some ⟨some 0, some 0⟩)).batchSize = 10 ∧
        (init (T := Nat) (R := Nat) (some ⟨some 0, some 0⟩)).batchFrequency = 1000) ∧
      ((init (T := Nat) (R := Nat) (some ⟨some 3, some 7⟩)).batchSize = 3 ∧
        (init (T := Nat) (R := Nat) (some ⟨some 3, some 7⟩)).batchFrequency = 7)) :=
  ⟨by decide, by decide, init_config_defaults Nat Nat 3 7 (by decide) (by decide)⟩

/-! Timer bookkeeping: the runtime's scheduled-timeout set always agrees
with the coordinator's `batchTimer` field and holds at most one entry. -/

/-- Clearing an already-cleared timer changes nothing. -/
theorem clearBatchTimer_of_none (s : MicroBatchProcessor T R)
    (h : s.batchTimer = none) : clearBatchTimer s = s := by
  simp [clearBatchTimer, h]

/-- Clearing the timer twice is the same as clearing it once. -/
theorem clearBatchTimer_idem (s : MicroBatchProcessor T R) :
    clearBatchTimer (clearBatchTimer s) = clearBatchTimer s := by
  cases hb : s.batchTimer <;> simp [clearBatchTimer, hb]

/-- The timer agreement invariant: either no timeout is scheduled, or
exactly the one whose handle the coordinator holds. -/
def TimerInv (s : MicroBatchProcessor T R) : Prop :=
  s.scheduled = [] ∨ ∃ t, s.batchTimer = some t ∧ s.scheduled = [t]

theorem timerInv_init (config : Option BatchingConfig) :
    TimerInv (init (T := T) (R := R) config) :=
  Or.inl rfl

theorem clearBatchTimer_scheduled_eq_nil (s : MicroBatchProcessor T R)
    (h : TimerInv s) : (clearBatchTimer s).scheduled = [] := by
  cases hb : s.batchTimer with
  | none =>
    rcases h with h0 | ⟨t, ht, _⟩
    · simp [clearBatchTimer, hb, h0]
    · rw [hb] at ht
      exact absurd ht (by simp)
  | some t =>
    rcases h with h0 | ⟨t', ht', hs⟩
    · simp [clearBatchTimer, hb, h0]
    · rw [hb] at ht'
      obtain rfl : t' = t := by injection ht' with h; exact h.symm
      simp [clearBatchTimer, hb, hs]

theorem timerInv_clearBatchTimer (s : MicroBatchProcessor T R)
    (h : TimerInv s) : TimerInv (clearBatchTimer s) :=
  Or.inl (clearBatchTimer_scheduled_eq_nil s h)

theorem timerInv_processBatch (s : MicroBatchProcessor T R)
    (h : TimerInv s) : TimerInv (processBatch bp s) := by
  left
  rw [processBatch_scheduled]
  exact clearBatchTimer_scheduled_eq_nil s h

theorem timerInv_shutdown (s : MicroBatchProcessor T R)
    (h : TimerInv s) : TimerInv (shutdown bp s) := by
  have h1 : TimerInv ({ s with isShuttingDown := true } : MicroBatchProcessor T R) := h
  by_cases hp : s.pendingJobs = []
  · have hs : shutdown bp s =
        clearBatchTimer { s with isShuttingDown := true } := by
      simp [shutdown, hp]
    rw [hs]
    exact timerInv_clearBatchTimer _ h1
  · have hs : shutdown bp s =
        processBatch bp (clearBatchTimer { s with isShuttingDown := true }) := by
      simp [shutdown, hp]
    rw [hs]
    exact timerInv_processBatch _ (timerInv_clearBatchTimer _ h1)

theorem timerInv_step (s : MicroBatchProcessor T R) (e : Event T)
    (h : TimerInv s) : TimerInv (step bp s e) := by
  cases e with
  | submit job =>
    by_cases hsd : s.isShuttingDown
    · have hstep : step bp s (.submit job) = s := by
        simp [step, submitJob, hsd]
      rw [hstep]; exact h
    · by_cases hfull : s.batchSize ≤ s.pendingJobs.length + 1
      · have hstep : step bp s (.submit job) = processBatch bp
            { s with
              pendingJobs := s.pendingJobs ++ [⟨s.nextUid, job.id, job.payload⟩]
              accepted := s.accepted ++ [⟨s.nextUid, job.id, job.payload⟩]
              nextUid := s.nextUid + 1 } := by
          simp [step, submitJob, hsd, hfull]
        rw [hstep]
        exact timerInv_processBatch _ h
      · by_cases ht : s.batchTimer = none
        · have hsch : s.scheduled = [] := by
            rcases h with h0 | ⟨t, ht', _⟩
            · exact h0
            · rw [ht] at ht'
              exact absurd ht' (by simp)
          have hstep : step bp s (.submit job) =
              { s with
                pendingJobs := s.pendingJobs ++ [⟨s.nextUid, job.id, job.payload⟩]
                accepted := s.accepted ++ [⟨s.nextUid, job.id, job.payload⟩]
                nextUid := s.nextUid + 1
                scheduled := s.scheduled ++ [s.nextTimerId]
                batchTimer := some s.nextTimerId
                nextTimerId := s.nextTimerId + 1 } := by
            simp [step, submitJob, hsd, hfull, ht]
          rw [hstep]
          exact Or.inr ⟨s.nextTimerId, rfl, by simp [hsch]⟩
        · have hstep : step bp s (.submit job) =
              { s with
                pendingJobs := s.pendingJobs ++ [⟨s.nextUid, job.id, job.payload⟩]
                accepted := s.accepted ++ [⟨s.nextUid, job.id, job.payload⟩]
                nextUid := s.nextUid + 1 } := by
            simp [step, submitJob, hsd, hfull, ht]
          rw [hstep]
          exact h
  | timerFire =>
    cases hsch : s.scheduled with
    | nil =>
      have hstep : step bp s .timerFire = s := by
        simp [step, hsch]
      rw [hstep]; exact h
    | cons t rest =>
      have hrest : rest = [] := by
        rcases h with h0 | ⟨t', _, hs'⟩
        · rw [h0] at hsch; cases hsch
        · rw [hs'] at hsch
          injection hsch with h1 h2
          exact h2.symm
      have hstep : step bp s .timerFire =
          processBatch bp { s with scheduled := rest } := by
        simp [step, hsch]
      rw [hstep, hrest]
      exact timerInv_processBatch _ (Or.inl rfl)
  | shutdownCall => exact timerInv_shutdown s h

theorem timerInv_runFrom (s : MicroBatchProcessor T R) (es : List (Event T))
    (h : TimerInv s) : TimerInv (runFrom bp s es) := by
  induction es generalizing s with
  | nil => exact h
  | cons e es ih => exact ih _ (timerInv_step s e h)

theorem timerInv_run (config : Option BatchingConfig) (es : List (Event T)) :
    TimerInv (run bp config es) :=
  timerInv_runFrom _ es (timerInv_init config)

/-- C8: timers never stack.  Disarming an already-disarmed timer is a no-op
and disarming twice equals disarming once; a dispatch cycle behaves as if run
after the disarm and ends with no armed timer; `shutdown` disarms
unconditionally; a successful `submitJob` with a timer already armed creates
no new timer (the timer-id counter does not advance); and along every event
sequence from construction, at most one scheduled timeout is outstanding. -/
theorem timer_single_outstanding (bp : BatchProcessorFun T R)
    (config : Option BatchingConfig) (es : List (Event T))
    (s : MicroBatchProcessor T R) (j : Job T) :
    (s.batchTimer = none → clearBatchTimer s = s) ∧
    clearBatchTimer (clearBatchTimer s) = clearBatchTimer s ∧
    processBatch bp (clearBatchTimer s) = processBatch bp s ∧
    (processBatch bp s).batchTimer = none ∧
    (shutdown bp s).batchTimer = none ∧
    (s.batchTimer ≠ none → s.isShuttingDown = false →
      ∃ s' u, submitJob bp j s = .ok (s', u) ∧ s'.nextTimerId = s.nextTimerId) ∧
    (run bp config es).scheduled.length ≤ 1 := by
  refine ⟨clearBatchTimer_of_none s, clearBatchTimer_idem s, ?_, processBatch_batchTimer s,
    ?_, ?_, ?_⟩
  · show processBatch bp (clearBatchTimer s) = processBatch bp s
    unfold processBatch
    rw [clearBatchTimer_idem]
  · by_cases hp : s.pendingJobs = []
    · have hs : shutdown bp s =
          clearBatchTimer { s with isShuttingDown := true } := by
        simp [shutdown, hp]
      rw [hs]; exact clearBatchTimer_batchTimer _
    · have hs : shutdown bp s =
          processBatch bp (clearBatchTimer { s with isShuttingDown := true }) := by
        simp [shutdown, hp]
      rw [hs]; exact processBatch_batchTimer _
  · intro ht hsd
    by_cases hfull : s.batchSize ≤ s.pendingJobs.length + 1
    · exact ⟨processBatch bp
        { s with
          pendingJobs := s.pendingJobs ++ [⟨s.nextUid, j.id, j.payload⟩]
          accepted := s.accepted ++ [⟨s.nextUid, j.id, j.payload⟩]
          nextUid := s.nextUid + 1 }, s.nextUid,
        by simp [submitJob, hsd, hfull], by simp⟩
    · exact ⟨{ s with
          pendingJobs := s.pendingJobs ++ [⟨s.nextUid, j.id, j.payload⟩]
          accepted := s.accepted ++ [⟨s.nextUid, j.id, j.payload⟩]
          nextUid := s.nextUid + 1 }, s.nextUid,
        by simp [submitJob, hsd, hfull, ht], by simp⟩
  · rcases @timerInv_run T R bp config es with h0 | ⟨t, _, hs'⟩
    · simp [h0]
    · simp [hs']

/-- Witness for C8: a coordinator with an armed timer accepting one more
job, and a concrete three-event trace from construction. -/
theorem timer_single_outstanding_witness :
    twoJobState.batchTimer ≠ none ∧ twoJobState.isShuttingDown = false ∧
    ((twoJobState.batchTimer = none → clearBatchTimer twoJobState = twoJobState) ∧
      clearBatchTimer (clearBatchTimer twoJobState) = clearBatchTimer twoJobState ∧
      processBatch bpSquare (clearBatchTimer twoJobState) =
        processBatch bpSquare twoJobState ∧
      (processBatch bpSquare twoJobState).batchTimer = none ∧
      (shutdown bpSquare twoJobState).batchTimer = none ∧
      (twoJobState.batchTimer ≠ none → twoJobState.isShuttingDown = false →
        ∃ s' u, submitJob bpSquare ⟨"k", 9⟩ twoJobState = .ok (s', u) ∧
          s'.nextTimerId = twoJobState.nextTimerId) ∧
      (run bpSquare (some ⟨some 2, some 50⟩)
        [.submit ⟨"1", 1⟩, .timerFire, .submit ⟨"2", 2⟩]).scheduled.length ≤ 1) :=
  ⟨by decide, rfl, timer_single_outstanding bpSquare (some ⟨some 2, some 50⟩)
    [.submit ⟨"1", 1⟩, .timerFire, .submit ⟨"2", 2⟩] twoJobState ⟨"k", 9⟩⟩

/-! Bookkeeping invariant tying the accepted, pending and resolved jobs
together along every reachable execution. -/

/-- The Batch Processor's documented contract: on success, the result
sequence has the same length as the input sequence. -/
def lengthContract (bp : BatchProcessorFun T R) : Prop :=
  ∀ l r, bp l = .ok r → r.length = l.length

/-- The reachable-state invariant: a positive batch size, a queue strictly
below the batch size, timer agreement, handles numbered `0, …, nextUid - 1`
in acceptance order, the accepted handles being exactly the resolved ones
followed by the queued ones, queued jobs drawn from the accepted list, and
every resolution carrying the identifier of the accepted job it resolves. -/
def StateInv (s : MicroBatchProcessor T R) : Prop :=
  0 < s.batchSize ∧
  s.pendingJobs.length < s.batchSize ∧
  TimerInv s ∧
  s.accepted.map InternalJob.uid = List.range s.nextUid ∧
  s.resolutions.map Prod.fst ++ s.pendingJobs.map InternalJob.uid =
    s.accepted.map InternalJob.uid ∧
  (∀ ij ∈ s.pendingJobs, ij ∈ s.accepted) ∧
  (∀ p ∈ s.resolutions, ∃ ij, ij ∈ s.accepted ∧ ij.uid = p.1 ∧ p.2.id = ij.id)

theorem orDefault_pos (x : Option Nat) (d : Nat) (hd : 0 < d) :
    0 < orDefault x d := by
  cases x with
  | none => exact hd
  | some n =>
    by_cases hn : n = 0 <;> simp [orDefault, hn] <;> omega

theorem stateInv_init (config : Option BatchingConfig) :
    StateInv (init (T := T) (R := R) config) := by
  refine ⟨orDefault_pos _ _ (by decide), ?_, timerInv_init config, rfl, rfl,
    ?_, ?_⟩
  · exact orDefault_pos _ _ (by decide)
  · intro ij hij
    cases hij
  · intro p hp
    cases hp

/-- Mapping the handle out of positionally paired resolutions recovers the
extracted jobs' handles, whenever enough results are available. -/
theorem zip_map_fst_uid (l : List (InternalJob T)) (r : List R)
    (hle : l.length ≤ r.length) (g : InternalJob T × R → JobResult R) :
    ((l.zip r).map (fun p => (p.1.uid, g p))).map Prod.fst =
      l.map InternalJob.uid := by
  rw [List.map_map,
    show (Prod.fst ∘ fun p : InternalJob T × R => (p.1.uid, g p)) =
      InternalJob.uid ∘ Prod.fst from rfl,
    ← List.map_map, List.map_fst_zip _ _ hle]

/-- Under the length contract, a dispatch cycle appends exactly the handles
of the extracted jobs to the resolution log. -/
theorem processBatch_res_fst (hbp : lengthContract bp)
    (s : MicroBatchProcessor T R) :
    (processBatch bp s).resolutions.map Prod.fst =
      s.resolutions.map Prod.fst ++
        (s.pendingJobs.take s.batchSize).map InternalJob.uid := by
  cases hc : bp ((s.pendingJobs.take s.batchSize).map (·.payload)) with
  | ok results =>
    rw [processBatch_resolutions_ok _ _ hc, List.map_append]
    congr 1
    have hle : (s.pendingJobs.take s.batchSize).length ≤ results.length := by
      rw [hbp _ _ hc, List.length_map]
    exact zip_map_fst_uid _ _ hle _
  | error e =>
    rw [processBatch_resolutions_error _ _ hc, List.map_append, List.map_map]
    rfl

/-- A dispatch cycle re-establishes the invariant from a state whose queue
is allowed to have just reached the batch size (the transient state inside
`submitJob` right after the push). -/
theorem stateInv_processBatch (hbp : lengthContract bp)
    (s : MicroBatchProcessor T R)
    (hbs : 0 < s.batchSize) (hlen : s.pendingJobs.length ≤ s.batchSize)
    (htimer : TimerInv s)
    (hrange : s.accepted.map InternalJob.uid = List.range s.nextUid)
    (hsplit : s.resolutions.map Prod.fst ++ s.pendingJobs.map InternalJob.uid =
      s.accepted.map InternalJob.uid)
    (hpa : ∀ ij ∈ s.pendingJobs, ij ∈ s.accepted)
    (hres : ∀ p ∈ s.resolutions,
      ∃ ij, ij ∈ s.accepted ∧ ij.uid = p.1 ∧ p.2.id = ij.id) :
    StateInv (processBatch bp s) := by
  refine ⟨by simpa using hbs, ?_, timerInv_processBatch s htimer, by simpa using hrange,
    ?_, ?_, ?_⟩
  · rw [processBatch_pendingJobs, processBatch_batchSize, List.length_drop]
    omega
  · rw [processBatch_res_fst hbp, processBatch_pendingJobs, processBatch_accepted,
      List.append_assoc, ← List.map_append, List.take_append_drop]
    exact hsplit
  · intro ij hij
    rw [processBatch_pendingJobs] at hij
    rw [processBatch_accepted]
    exact hpa ij (List.mem_of_mem_drop hij)
  · intro p hp
    rw [processBatch_accepted]
    cases hc : bp ((s.pendingJobs.take s.batchSize).map (·.payload)) with
    | ok results =>
      rw [processBatch_resolutions_ok _ _ hc] at hp
      rcases List.mem_append.mp hp with hold | hnew
      · exact hres p hold
      · obtain ⟨pr, hpr, rfl⟩ := List.mem_map.mp hnew
        exact ⟨pr.1, hpa _ (List.mem_of_mem_take (List.of_mem_zip hpr).1), rfl, rfl⟩
    | error e =>
      rw [processBatch_resolutions_error _ _ hc] at hp
      rcases List.mem_append.mp hp with hold | hnew
      · exact hres p hold
      · obtain ⟨ij, hij, rfl⟩ := List.mem_map.mp hnew
        exact ⟨ij, hpa _ (List.mem_of_mem_take hij), rfl, rfl⟩

/-- Every event step preserves the reachable-state invariant, provided the
batch processor honours its length contract. -/
theorem stateInv_step (hbp : lengthContract bp) (s : MicroBatchProcessor T R)
    (e : Event T) (hInv : StateInv s) : StateInv (step bp s e) := by
  obtain ⟨hbs, hlen, htimer, hrange, hsplit, hpa, hres⟩ := hInv
  cases e with
  | submit job =>
    by_cases hsd : s.isShuttingDown
    · have hstep : step bp s (.submit job) = s := by
        simp [step, submitJob, hsd]
      rw [hstep]
      exact ⟨hbs, hlen, htimer, hrange, hsplit, hpa, hres⟩
    · by_cases hfull : s.batchSize ≤ s.pendingJobs.length + 1
      · have hstep : step bp s (.submit job) = processBatch bp
            { s with
              pendingJobs := s.pendingJobs ++ [⟨s.nextUid, job.id, job.payload⟩]
              accepted := s.accepted ++ [⟨s.nextUid, job.id, job.payload⟩]
              nextUid := s.nextUid + 1 } := by
          simp [step, submitJob, hsd, hfull]
        rw [hstep]
        apply stateInv_processBatch hbp
        · simpa using hbs
        · simp
          omega
        · exact htimer
        · simp [hrange, List.range_succ]
        · simp only [List.map_append, List.map_cons, List.map_nil]
          rw [← List.append_assoc, hsplit]
        · intro ij hij
          rcases List.mem_append.mp hij with h0 | h0
          · exact List.mem_append.mpr (Or.inl (hpa ij h0))
          · exact List.mem_append.mpr (Or.inr h0)
        · intro p hp
          obtain ⟨ij, hija, h1, h2⟩ := hres p hp
          exact ⟨ij, List.mem_append.mpr (Or.inl hija), h1, h2⟩
      · have hq : s.pendingJobs.length + 1 < s.batchSize := by omega
        by_cases ht : s.batchTimer = none
        · have hsch : s.scheduled = [] := by
            rcases htimer with h0 | ⟨t, ht', _⟩
            · exact h0
            · rw [ht] at ht'
              exact absurd ht' (by simp)
          have hstep : step bp s (.submit job) =
              { s with
                pendingJobs := s.pendingJobs ++ [⟨s.nextUid, job.id, job.payload⟩]
                accepted := s.accepted ++ [⟨s.nextUid, job.id, job.payload⟩]
                nextUid := s.nextUid + 1
                scheduled := s.scheduled ++ [s.nextTimerId]
                batchTimer := some s.nextTimerId
                nextTimerId := s.nextTimerId + 1 } := by
            simp [step, submitJob, hsd, hfull, ht]
          rw [hstep]
          refine ⟨by simpa using hbs, by simp; omega,
            Or.inr ⟨s.nextTimerId, rfl, by simp [hsch]⟩,
            by simp [hrange, List.range_succ], ?_, ?_, ?_⟩
          · simp only [List.map_append, List.map_cons, List.map_nil]
            rw [← List.append_assoc, hsplit]
          · intro ij hij
            rcases List.mem_append.mp hij with h0 | h0
            · exact List.mem_append.mpr (Or.inl (hpa ij h0))
            · exact List.mem_append.mpr (Or.inr h0)
          · intro p hp
            obtain ⟨ij, hija, h1, h2⟩ := hres p hp
            exact ⟨ij, List.mem_append.mpr (Or.inl hija), h1, h2⟩
        · have hstep : step bp s (.submit job) =
              { s with
                pendingJobs := s.pendingJobs ++ [⟨s.nextUid, job.id, job.payload⟩]
                accepted := s.accepted ++ [⟨s.nextUid, job.id, job.payload⟩]
                nextUid := s.nextUid + 1 } := by
            simp [step, submitJob, hsd, hfull, ht]
          rw [hstep]
          refine ⟨by simpa using hbs, by simp; omega, htimer,
            by simp [hrange, List.range_succ], ?_, ?_, ?_⟩
          · simp only [List.map_append, List.map_cons, List.map_nil]
            rw [← List.append_assoc, hsplit]
          · intro ij hij
            rcases List.mem_append.mp hij with h0 | h0
            · exact List.mem_append.mpr (Or.inl (hpa ij h0))
            · exact List.mem_append.mpr (Or.inr h0)
          · intro p hp
            obtain ⟨ij, hija, h1, h2⟩ := hres p hp
            exact ⟨ij, List.mem_append.mpr (Or.inl hija), h1, h2⟩
  | timerFire =>
    cases hsch : s.scheduled with
    | nil =>
      have hstep : step bp s .timerFire = s := by
        simp [step, hsch]
      rw [hstep]
      exact ⟨hbs, hlen, htimer, hrange, hsplit, hpa, hres⟩
    | cons t rest =>
      have hrest : rest = [] := by
        rcases htimer with h0 | ⟨t', _, hs'⟩
        · rw [h0] at hsch
          cases hsch
        · rw [hs'] at hsch
          injection hsch with h1 h2
          exact h2.symm
      have hstep : step bp s .timerFire =
          processBatch bp { s with scheduled := rest } := by
        simp [step, hsch]
      rw [hstep, hrest]
      exact stateInv_processBatch hbp _ hbs (Nat.le_of_lt hlen) (Or.inl rfl)
        hrange hsplit hpa hres
  | shutdownCall =>
    by_cases hp : s.pendingJobs = []
    · have hs : step bp s .shutdownCall =
          clearBatchTimer { s with isShuttingDown := true } := by
          simp [step, shutdown, hp]
      rw [hs]
      refine ⟨by simpa using hbs, by simpa using hlen,
        timerInv_clearBatchTimer _ htimer, by simpa using hrange,
        by simpa using hsplit, ?_, ?_⟩
      · intro ij hij
        rw [clearBatchTimer_pendingJobs] at hij
        rw [clearBatchTimer_accepted]
        exact hpa ij hij
      · intro p hq
        rw [clearBatchTimer_resolutions] at hq
        rw [clearBatchTimer_accepted]
        exact hres p hq
    · have hs : step bp s .shutdownCall =
          processBatch bp (clearBatchTimer { s with isShuttingDown := true }) := by
        simp [step, shutdown, hp]
      rw [hs]
      apply stateInv_processBatch hbp
      · simpa using hbs
      · simpa using Nat.le_of_lt hlen
      · exact timerInv_clearBatchTimer _ htimer
      · simpa using hrange
      · simpa using hsplit
      · intro ij hij
        rw [clearBatchTimer_pendingJobs] at hij
        rw [clearBatchTimer_accepted]
        exact hpa ij hij
      · intro p hq
        rw [clearBatchTimer_resolutions] at hq
        rw [clearBatchTimer_accepted]
        exact hres p hq

theorem stateInv_runFrom (hbp : lengthContract bp)
    (s : MicroBatchProcessor T R) (es : List (Event T)) (h : StateInv s) :
    StateInv (runFrom bp s es) := by
  induction es generalizing s with
  | nil => exact h
  | cons e es ih => exact ih _ (stateInv_step hbp s e h)

theorem stateInv_run (hbp : lengthContract bp)
    (config : Option BatchingConfig) (es : List (Event T)) :
    StateInv (run bp config es) :=
  stateInv_runFrom hbp _ es (stateInv_init config)

/-- From any state whose queue is strictly below the batch size — as in
every reachable state — `shutdown`'s single drain cycle empties the queue. -/
theorem shutdown_pendingJobs_eq_nil (s : MicroBatchProcessor T R)
    (hlen : s.pendingJobs.length < s.batchSize) :
    (shutdown bp s).pendingJobs = [] := by
  by_cases hp : s.pendingJobs = []
  · have hs : shutdown bp s =
        clearBatchTimer { s with isShuttingDown := true } := by
      simp [shutdown, hp]
    rw [hs, clearBatchTimer_pendingJobs]
    exact hp
  · have hs : shutdown bp s =
        processBatch bp (clearBatchTimer { s with isShuttingDown := true }) := by
      simp [shutdown, hp]
    rw [hs, processBatch_pendingJobs]
    simp only [clearBatchTimer_pendingJobs, clearBatchTimer_batchSize]
    exact List.drop_eq_nil_of_le (Nat.le_of_lt hlen)

/-- C3: along every event sequence from construction, once `shutdown` has
run, each job ever accepted by `submitJob` has been resolved exactly once
(its handle occurs exactly once in the resolution log), and every resolution
delivered for its handle carries that job's identifier — assuming the Batch
Processor honours its same-length contract or fails as a whole. -/
theorem accepted_resolved_exactly_once (bp : BatchProcessorFun T R)
    (hbp : lengthContract bp) (config : Option BatchingConfig)
    (es : List (Event T)) :
    ∀ ij ∈ (shutdown bp (run bp config es)).accepted,
      ((shutdown bp (run bp config es)).resolutions.map Prod.fst).count ij.uid
        = 1 ∧
      ∀ p ∈ (shutdown bp (run bp config es)).resolutions,
        p.1 = ij.uid → p.2.id = ij.id := by
  have hInv : StateInv (run bp config es) := stateInv_run hbp config es
  have hInv2 : StateInv (shutdown bp (run bp config es)) :=
    stateInv_step hbp _ .shutdownCall hInv
  have hnil : (shutdown bp (run bp config es)).pendingJobs = [] :=
    shutdown_pendingJobs_eq_nil _ hInv.2.1
  obtain ⟨_, _, _, hrange, hsplit, _, hres⟩ := hInv2
  rw [hnil] at hsplit
  simp only [List.map_nil, List.append_nil] at hsplit
  intro ij hij
  have hmem : ij.uid ∈
      (shutdown bp (run bp config es)).accepted.map InternalJob.uid :=
    List.mem_map_of_mem _ hij
  constructor
  · rw [hsplit, hrange]
    rw [hrange] at hmem
    exact List.count_eq_one_of_mem (List.nodup_range _) hmem
  · intro p hp hpid
    obtain ⟨ij2, hij2a, h1, h2⟩ := hres p hp
    have hinj := List.inj_on_of_nodup_map
      (show ((shutdown bp (run bp config es)).accepted.map
          InternalJob.uid).Nodup by
        rw [hrange]; exact List.nodup_range _)
    have heq : ij2 = ij := hinj hij2a hij (h1.trans hpid)
    rw [h2, heq]

/-- The squaring processor returns one result per input. -/
theorem bpSquare_lengthContract : lengthContract bpSquare := by
  intro l r h
  injection h with h2
  rw [← h2]
  simp

/-- Witness for C3: three submissions against batch size 2 — two resolved by
the size-triggered batch, the third by the shutdown drain. -/
theorem accepted_resolved_exactly_once_witness :
    lengthContract bpSquare ∧
    ∀ ij ∈ (shutdown bpSquare (run bpSquare (some ⟨some 2, some 100⟩)
        [.submit ⟨"1", 1⟩, .submit ⟨"2", 2⟩, .submit ⟨"3", 3⟩])).accepted,
      ((shutdown bpSquare (run bpSquare (some ⟨some 2, some 100⟩)
        [.submit ⟨"1", 1⟩, .submit ⟨"2", 2⟩,
          .submit ⟨"3", 3⟩])).resolutions.map Prod.fst).count ij.uid = 1 ∧
      ∀ p ∈ (shutdown bpSquare (run bpSquare (some ⟨some 2, some 100⟩)
          [.submit ⟨"1", 1⟩, .submit ⟨"2", 2⟩,
            .submit ⟨"3", 3⟩])).resolutions,
        p.1 = ij.uid → p.2.id = ij.id :=
  ⟨bpSquare_lengthContract,
    accepted_resolved_exactly_once bpSquare bpSquare_lengthContract
      (some ⟨some 2, some 100⟩)
      [.submit ⟨"1", 1⟩, .submit ⟨"2", 2⟩, .submit ⟨"3", 3⟩]⟩

/-! A handle that is neither queued nor resolved can never be resolved by
any later event: resolutions are only ever produced for queued jobs, and
fresh handles never collide with old ones. -/

theorem unresolved_processBatch (s : MicroBatchProcessor T R) (u : Nat)
    (h1 : u < s.nextUid)
    (h2 : u ∉ s.pendingJobs.map InternalJob.uid)
    (h3 : u ∉ s.resolutions.map Prod.fst) :
    u < (processBatch bp s).nextUid ∧
    u ∉ (processBatch bp s).pendingJobs.map InternalJob.uid ∧
    u ∉ (processBatch bp s).resolutions.map Prod.fst := by
  refine ⟨by simpa using h1, ?_, ?_⟩
  · rw [processBatch_pendingJobs]
    intro hu
    obtain ⟨ij, hij, hiju⟩ := List.mem_map.mp hu
    exact h2 (List.mem_map.mpr ⟨ij, List.mem_of_mem_drop hij, hiju⟩)
  · intro hu
    cases hc : bp ((s.pendingJobs.take s.batchSize).map (·.payload)) with
    | ok results =>
      rw [processBatch_resolutions_ok _ _ hc, List.map_append, List.map_map] at hu
      rcases List.mem_append.mp hu with h0 | h0
      · exact h3 h0
      · obtain ⟨pr, hpr, hpru⟩ := List.mem_map.mp h0
        exact h2 (List.mem_map.mpr
          ⟨pr.1, List.mem_of_mem_take (List.of_mem_zip hpr).1, hpru⟩)
    | error e =>
      rw [processBatch_resolutions_error _ _ hc, List.map_append, List.map_map] at hu
      rcases List.mem_append.mp hu with h0 | h0
      · exact h3 h0
      · obtain ⟨ij, hij, hiju⟩ := List.mem_map.mp h0
        exact h2 (List.mem_map.mpr ⟨ij, List.mem_of_mem_take hij, hiju⟩)

theorem unresolved_step (s : MicroBatchProcessor T R) (u : Nat) (e : Event T)
    (h1 : u < s.nextUid)
    (h2 : u ∉ s.pendingJobs.map InternalJob.uid)
    (h3 : u ∉ s.resolutions.map Prod.fst) :
    u < (step bp s e).nextUid ∧
    u ∉ (step bp s e).pendingJobs.map InternalJob.uid ∧
    u ∉ (step bp s e).resolutions.map Prod.fst := by
  cases e with
  | submit job =>
    by_cases hsd : s.isShuttingDown
    · have hstep : step bp s (.submit job) = s := by
        simp [step, submitJob, hsd]
      rw [hstep]
      exact ⟨h1, h2, h3⟩
    · have h2p : u ∉ (s.pendingJobs ++
          [(⟨s.nextUid, job.id, job.payload⟩ : InternalJob T)]).map
            InternalJob.uid := by
        rw [List.map_append]
        intro hu
        rcases List.mem_append.mp hu with h0 | h0
        · exact h2 h0
        · simp at h0
          omega
      by_cases hfull : s.batchSize ≤ s.pendingJobs.length + 1
      · have hstep : step bp s (.submit job) = processBatch bp
            { s with
              pendingJobs := s.pendingJobs ++ [⟨s.nextUid, job.id, job.payload⟩]
              accepted := s.accepted ++ [⟨s.nextUid, job.id, job.payload⟩]
              nextUid := s.nextUid + 1 } := by
          simp [step, submitJob, hsd, hfull]
        rw [hstep]
        exact unresolved_processBatch _ u (by simp; omega) h2p h3
      · by_cases ht : s.batchTimer = none
        · have hstep : step bp s (.submit job) =
              { s with
                pendingJobs := s.pendingJobs ++ [⟨s.nextUid, job.id, job.payload⟩]
                accepted := s.accepted ++ [⟨s.nextUid, job.id, job.payload⟩]
                nextUid := s.nextUid + 1
                scheduled := s.scheduled ++ [s.nextTimerId]
                batchTimer := some s.nextTimerId
                nextTimerId := s.nextTimerId + 1 } := by
            simp [step, submitJob, hsd, hfull, ht]
          rw [hstep]
          exact ⟨by simp; omega, h2p, h3⟩
        · have hstep : step bp s (.submit job) =
              { s with
                pendingJobs := s.pendingJobs ++ [⟨s.nextUid, job.id, job.payload⟩]
                accepted := s.accepted ++ [⟨s.nextUid, job.id, job.payload⟩]
                nextUid := s.nextUid + 1 } := by
            simp [step, submitJob, hsd, hfull, ht]
          rw [hstep]
          exact ⟨by simp; omega, h2p, h3⟩
  | timerFire =>
    cases hsch : s.scheduled with
    | nil =>
      have hstep : step bp s .timerFire = s := by
        simp [step, hsch]
      rw [hstep]
      exact ⟨h1, h2, h3⟩
    | cons t rest =>
      have hstep : step bp s .timerFire =
          processBatch bp { s with scheduled := rest } := by
        simp [step, hsch]
      rw [hstep]
      exact unresolved_processBatch _ u h1 h2 h3
  | shutdownCall =>
    by_cases hp : s.pendingJobs = []
    · have hs : step bp s .shutdownCall =
          clearBatchTimer { s with isShuttingDown := true } := by
        simp [step, shutdown, hp]
      rw [hs]
      refine ⟨by simpa using h1, ?_, ?_⟩
      · rw [clearBatchTimer_pendingJobs]
        exact h2
      · rw [clearBatchTimer_resolutions]
        exact h3
    · have hs : step bp s .shutdownCall =
          processBatch bp (clearBatchTimer { s with isShuttingDown := true }) := by
        simp [step, shutdown, hp]
      rw [hs]
      refine unresolved_processBatch _ u (by simpa using h1) ?_ ?_
      · rw [clearBatchTimer_pendingJobs]
        exact h2
      · rw [clearBatchTimer_resolutions]
        exact h3

theorem unresolved_runFrom (s : MicroBatchProcessor T R) (u : Nat)
    (es : List (Event T))
    (h1 : u < s.nextUid)
    (h2 : u ∉ s.pendingJobs.map InternalJob.uid)
    (h3 : u ∉ s.resolutions.map Prod.fst) :
    u ∉ (runFrom bp s es).resolutions.map Prod.fst := by
  induction es generalizing s with
  | nil => exact h3
  | cons e es ih =>
    obtain ⟨g1, g2, g3⟩ := @unresolved_step T R bp s u e h1 h2 h3
    exact ih _ g1 g2 g3

/-- C10: when the Batch Processor succeeds but returns fewer results than
the jobs extracted, the cycle resolves exactly one job per returned result
— the jobs at positions strictly below the result count — and an extracted
job at a position at or beyond the result count is not resolved in that
cycle nor by any sequence of later events: its completion handle is never
resolved, and no error is delivered for it (the cycle still returns
normally, as `processBatch` is total). -/
theorem processBatch_short_results (bp : BatchProcessorFun T R)
    (s : MicroBatchProcessor T R) (results : List R) (i : Nat)
    (ji : InternalJob T)
    (hc : bp ((s.pendingJobs.take s.batchSize).map (·.payload)) = .ok results)
    (hji : (s.pendingJobs.take s.batchSize)[i]? = some ji)
    (hshort : results.length ≤ i)
    (hfresh : ji.uid < s.nextUid)
    (hnodup : ((s.pendingJobs.take s.batchSize).map InternalJob.uid).Nodup)
    (hpend : ji.uid ∉ (s.pendingJobs.drop s.batchSize).map InternalJob.uid)
    (hres : ji.uid ∉ s.resolutions.map Prod.fst) :
    ((processBatch bp s).resolutions).length =
      s.resolutions.length + results.length ∧
    ji.uid ∉ ((processBatch bp s).resolutions).map Prod.fst ∧
    ∀ es, ji.uid ∉
      ((runFrom bp (processBatch bp s) es).resolutions).map Prod.fst := by
  obtain ⟨hilt, hgeti⟩ := List.getElem?_eq_some.mp hji
  have key : ji.uid ∉ ((processBatch bp s).resolutions).map Prod.fst := by
    intro hu
    rw [processBatch_resolutions_ok _ _ hc, List.map_append, List.map_map] at hu
    rcases List.mem_append.mp hu with h0 | h0
    · exact hres h0
    · obtain ⟨pr, hpr, hpru⟩ := List.mem_map.mp h0
      obtain ⟨k, hk, hzk⟩ := List.mem_iff_getElem.mp hpr
      have hzq : ((s.pendingJobs.take s.batchSize).zip results)[k]? = some pr := by
        rw [(List.getElem?_eq_some_getElem_iff _ _ hk).mpr trivial, hzk]
      obtain ⟨htk, hrk⟩ := List.getElem?_zip_eq_some.mp hzq
      have hklt : k < results.length :=
        (List.getElem?_eq_some.mp hrk).1
      have hmk : ((s.pendingJobs.take s.batchSize).map
          InternalJob.uid)[k]? = some ji.uid := by
        rw [List.getElem?_map, htk]
        exact congrArg some hpru
      have hmi : ((s.pendingJobs.take s.batchSize).map
          InternalJob.uid)[i]? = some ji.uid := by
        rw [List.getElem?_map, hji]
        rfl
      have hkm : k < ((s.pendingJobs.take s.batchSize).map
          InternalJob.uid).length := by
        rw [List.length_map]
        omega
      have hki : k = i := List.getElem?_inj hkm hnodup (hmk.trans hmi.symm)
      omega
  refine ⟨?_, key, ?_⟩
  · rw [processBatch_resolutions_ok _ _ hc, List.length_append, List.length_map,
      List.length_zip]
    have : min (s.pendingJobs.take s.batchSize).length results.length =
        results.length := by omega
    rw [this]
  · intro es
    refine unresolved_runFrom _ ji.uid es (by simpa using hfresh) ?_ key
    rw [processBatch_pendingJobs]
    exact hpend

/-- Witness for C10: the contract-violating `bpShort` returns one result for
the two extracted jobs, so job `⟨1, "y", 3⟩` at position 1 stays unresolved
forever. -/
theorem processBatch_short_results_witness :
    bpShort ((twoJobState.pendingJobs.take twoJobState.batchSize).map
      (·.payload)) = .ok [4] ∧
    (twoJobState.pendingJobs.take twoJobState.batchSize)[1]? =
      some ⟨1, "y", 3⟩ ∧
    ([4] : List Nat).length ≤ 1 ∧
    (⟨1, "y", 3⟩ : InternalJob Nat).uid < twoJobState.nextUid ∧
    ((twoJobState.pendingJobs.take twoJobState.batchSize).map
      InternalJob.uid).Nodup ∧
    (⟨1, "y", 3⟩ : InternalJob Nat).uid ∉
      (twoJobState.pendingJobs.drop twoJobState.batchSize).map InternalJob.uid ∧
    (⟨1, "y", 3⟩ : InternalJob Nat).uid ∉ twoJobState.resolutions.map Prod.fst ∧
    (((processBatch bpShort twoJobState).resolutions).length =
        twoJobState.resolutions.length + ([4] : List Nat).length ∧
      (⟨1, "y", 3⟩ : InternalJob Nat).uid ∉
        ((processBatch bpShort twoJobState).resolutions).map Prod.fst ∧
      ∀ es, (⟨1, "y", 3⟩ : InternalJob Nat).uid ∉
        ((runFrom bpShort (processBatch bpShort twoJobState)
          es).resolutions).map Prod.fst) :=
  ⟨rfl, rfl, by decide, by decide, by decide, by decide, by decide,
    processBatch_short_results bpShort twoJobState [4] 1 ⟨1, "y", 3⟩ rfl rfl
      (by decide) (by decide) (by decide) (by decide) (by decide)⟩

end MicroBatchProcessor

end MicroBatching
